import Mathlib

/-!
Verification development for the sgqlc GraphQL schema code generator
(`sgqlc/codegen/__init__.py`).  The Python source is shallowly embedded:
pure functions become Lean functions, the mutable `written_types` set and
the output sink become an explicit `GenState` threaded through the
emission functions, and failures (Python `assert`, `KeyError`,
`SystemExit`, parse errors) become explicit error values.
-/

/-! ## Literal evaluator (JSONOutputVisitor / parse_graphql_value_to_json)

The GraphQL value AST mirrors the node kinds handled by
`JSONOutputVisitor`: Int/Float/String/Boolean/Enum/Null/List/Object
values plus object fields.  As in the `graphql` library's AST, numeric
nodes carry the matched source text as a string; the visitor converts it
with Python's `int()` / `float()`. -/

mutual
inductive GValue where
  | intV (s : String)
  | floatV (s : String)
  | strV (s : String)
  | boolV (b : Bool)
  | enumV (s : String)
  | nullV
  | listV (vs : GValues)
  | objV (fs : GFields)
inductive GValues where
  | nil
  | cons (v : GValue) (tl : GValues)
inductive GFields where
  | nil
  | cons (k : String) (v : GValue) (tl : GFields)
end

/-- Decimal floating value `mant * 10 ^ exp10`: the exact decimal
denoted by a GraphQL float literal.  (CPython's `float()` additionally
rounds this decimal to IEEE-754 binary64; that rounding is not
modelled.) -/
structure DecFloat where
  mant : Int
  exp10 : Int
deriving DecidableEq

/-! Native values produced by the visitor: Python int / float / str /
bool / None / list / dict (insertion ordered, represented as `JFields`). -/
mutual
inductive JValue where
  | jnull
  | jbool (b : Bool)
  | jint (n : Int)
  | jfloat (f : DecFloat)
  | jstr (s : String)
  | jlist (xs : JValues)
  | jobj (fs : JFields)
deriving DecidableEq
inductive JValues where
  | nil
  | cons (x : JValue) (tl : JValues)
deriving DecidableEq
inductive JFields where
  | nil
  | cons (k : String) (v : JValue) (tl : JFields)
deriving DecidableEq
end

/-- Numeric value of a digit run (`none` unless nonempty and all
digits), as consumed by Python's `int()` on the literals at hand. -/
def digitsVal (ds : List Char) : Option Nat :=
  if ds.isEmpty || !ds.all Char.isDigit then none
  else some (ds.foldl (fun a c => a * 10 + (c.toNat - 48)) 0)

/-- Python `int(s)` on the strings an `IntValue` node can carry
(`-?Digits`). -/
def pyInt (s : String) : Option Int :=
  match s.data with
  | [] => none
  | c :: tl =>
    if c = '-' then (digitsVal tl).map (fun n => -(n : Int))
    else (digitsVal s.data).map (fun n => (n : Int))

/-- Signed digit run (exponent part of a float literal). -/
def pyIntSigned (ds : List Char) : Option Int :=
  match ds with
  | [] => none
  | c :: tl =>
    if c = '-' then (digitsVal tl).map (fun n => -(n : Int))
    else if c = '+' then (digitsVal tl).map (fun n => (n : Int))
    else (digitsVal ds).map (fun n => (n : Int))

/-- Unsigned part of Python `float(s)`: `Digits[.Digits][(e|E)Sign?Digits]`,
returned as the exact decimal it denotes. -/
def pyFloatMag (ds : List Char) : Option DecFloat :=
  let (m, rest) := ds.span (fun c => c != 'e' && c != 'E')
  let mantPart : Option (Int × Int) :=
    let (ip, fr) := m.span (fun c => c != '.')
    match fr with
    | [] => (digitsVal ip).map (fun n => ((n : Int), (0 : Int)))
    | _ :: frds =>
      match digitsVal ip, digitsVal frds with
      | some i, some f =>
        some (((i * 10 ^ frds.length + f : Nat) : Int), -(frds.length : Int))
      | _, _ => none
  match rest with
  | [] => mantPart.map (fun p => ⟨p.1, p.2⟩)
  | _ :: es =>
    match mantPart, pyIntSigned es with
    | some p, some ex => some ⟨p.1, p.2 + ex⟩
    | _, _ => none

/-- Python `float(s)` on the strings a `FloatValue` node can carry. -/
def pyFloat (s : String) : Option DecFloat :=
  match s.data with
  | [] => none
  | c :: _tl =>
    if c = '-' then (pyFloatMag s.data.tail).map (fun f => ⟨-f.mant, f.exp10⟩)
    else pyFloatMag s.data

/-- Whether a key occurs in an ordered field list. -/
def JFields.hasKey : JFields → String → Bool
  | .nil, _ => false
  | .cons k _ tl, k' => k == k' || JFields.hasKey tl k'

/-- Overwrite every binding of a key, in place (Python dict assignment
on an existing key keeps its position). -/
def JFields.setKey : JFields → String → JValue → JFields
  | .nil, _, _ => .nil
  | .cons k v tl, k', v' =>
    if k == k' then .cons k v' (JFields.setKey tl k' v')
    else .cons k v (JFields.setKey tl k' v')

/-- Concatenation of field lists. -/
def JFields.append : JFields → JFields → JFields
  | .nil, r => r
  | .cons k v tl, r => .cons k v (JFields.append tl r)

/-- One insertion into a Python dict built from a pair list: a repeated
key overwrites in place, a fresh key appends. -/
def pyDictInsert (acc : JFields) (k : String) (v : JValue) : JFields :=
  if acc.hasKey k then acc.setKey k v else acc.append (.cons k v .nil)

/-- Fold of `pyDictInsert` over the written pairs. -/
def pyDictGo : JFields → JFields → JFields
  | acc, .nil => acc
  | acc, .cons k v tl => pyDictGo (pyDictInsert acc k v) tl

/-- Python `dict(pairs)` as an insertion-ordered field list
(`leave_ObjectValue` does `dict(node.fields)`). -/
def pyDict (ps : JFields) : JFields := pyDictGo .nil ps

mutual
/-- Post-order reduction performed by `visit(value, JSONOutputVisitor())`:
each `leave_*` method replaces its node by a native value, so a node is
reduced after all of its children.  `none` models the `ValueError` that
`int()` / `float()` would raise on a malformed numeric string. -/
def visitValue : GValue → Option JValue
  | .intV s => (pyInt s).map .jint
  | .floatV s => (pyFloat s).map .jfloat
  | .strV s => some (.jstr s)
  | .boolV b => some (.jbool b)
  | .enumV s => some (.jstr s)
  | .nullV => some .jnull
  | .listV vs => (visitValues vs).map .jlist
  | .objV fs => (visitFields fs).map (fun ps => .jobj (pyDict ps))
/-- `leave_ListValue` returns `node.values` with the children already
replaced by their reductions. -/
def visitValues : GValues → Option JValues
  | .nil => some .nil
  | .cons v tl =>
    match visitValue v, visitValues tl with
    | some j, some js => some (.cons j js)
    | _, _ => none
/-- `leave_ObjectField` returns `(node.name.value, node.value)` with the
value child already replaced. -/
def visitFields : GFields → Option JFields
  | .nil => some .nil
  | .cons k v tl =>
    match visitValue v, visitFields tl with
    | some j, some js => some (.cons k j js)
    | _, _ => none
end

/-! ## Value-literal parsing

`parse_graphql_value_to_json` first calls the external
`graphql.language.parser.parse_value`.  That parser is not part of this
repository, so it is modelled from the spec below. -/

/-- Characters the GraphQL lexer ignores between tokens. -/
def isIgnoredChar (c : Char) : Bool :=
  c = ' ' || c = '\t' || c = '\n' || c = '\r' || c = ','

/-- Drop ignored characters. -/
def skipIgnored : List Char → List Char
  | [] => []
  | c :: cs => if isIgnoredChar c then skipIgnored cs else c :: cs

def isNameStart (c : Char) : Bool := c = '_' || c.isAlpha

def isNameChar (c : Char) : Bool := c = '_' || c.isAlphanum

def quoteChar : Char := Char.ofNat 34

def backslashChar : Char := Char.ofNat 92

def lbraceChar : Char := Char.ofNat 123

def rbraceChar : Char := Char.ofNat 125

/-- String-literal escapes (`\uXXXX` is not modelled; no claim uses it). -/
def unescapeChar (c : Char) : Option Char :=
  if c = quoteChar then some quoteChar
  else if c = backslashChar then some backslashChar
  else if c = '/' then some '/'
  else if c = 'n' then some '\n'
  else if c = 't' then some '\t'
  else if c = 'r' then some '\r'
  else if c = 'b' then some (Char.ofNat 8)
  else if c = 'f' then some (Char.ofNat 12)
  else none

/-- Body of a string literal after the opening quote: returns the
unescaped content and the input following the closing quote. -/
def parseStrBody : List Char → Option (List Char × List Char)
  | [] => none
  | c :: cs =>
    if c = quoteChar then some ([], cs)
    else if c = backslashChar then
      match cs with
      | [] => none
      | e :: cs' =>
        match unescapeChar e with
        | none => none
        | some ec =>
          match parseStrBody cs' with
          | none => none
          | some (tl, rest) => some (ec :: tl, rest)
    else
      match parseStrBody cs with
      | none => none
      | some (tl, rest) => some (c :: tl, rest)

/-- Exponent part `(e|E)Sign?Digits`, if present: returns the matched
characters and the rest (no match returns `([], input)`). -/
def parseExpPart (cs : List Char) : List Char × List Char :=
  match cs with
  | c :: tl =>
    if c = 'e' || c = 'E' then
      match tl with
      | s :: tl' =>
        if s = '-' || s = '+' then
          let (ds, rest) := tl'.span Char.isDigit
          if ds.isEmpty then ([], cs) else (c :: s :: ds, rest)
        else
          let (ds, rest) := tl.span Char.isDigit
          if ds.isEmpty then ([], cs) else (c :: ds, rest)
      | [] => ([], cs)
    else ([], cs)
  | [] => ([], cs)

/-- Numeric token `-?Digits(.Digits)?Exp?`: an `IntValue` node unless a
fraction or exponent part is present, in which case a `FloatValue`
node.  Either node stores the matched source text. -/
def parseNumber (cs : List Char) : Option (GValue × List Char) :=
  let (sgn, cs1) :=
    match cs with
    | c :: tl => if c = '-' then (([c] : List Char), tl) else (([] : List Char), cs)
    | [] => (([] : List Char), cs)
  let (ip, cs2) := cs1.span Char.isDigit
  if ip.isEmpty then none
  else
    match cs2 with
    | c :: tl =>
      if c = '.' then
        let (fp, cs3) := tl.span Char.isDigit
        if fp.isEmpty then none
        else
          let (ep, cs4) := parseExpPart cs3
          some (.floatV (String.mk (sgn ++ ip ++ [c] ++ fp ++ ep)), cs4)
      else
        let (ep, cs4) := parseExpPart cs2
        if ep.isEmpty then some (.intV (String.mk (sgn ++ ip)), cs2)
        else some (.floatV (String.mk (sgn ++ ip ++ ep)), cs4)
    | [] => some (.intV (String.mk (sgn ++ ip)), cs2)

mutual
/-- Modelled from the spec: the external GraphQL value parser
(`graphql.language.parser.parse_value`), which is not code of this
repository.  Recursive-descent over the value grammar the spec
enumerates: ints, floats, strings, booleans, enums, lists, objects,
null.  `fuel` bounds recursion depth; `parse_value` supplies enough for
any input. -/
def parseVal : Nat → List Char → Option (GValue × List Char)
  | 0, _ => none
  | fuel + 1, cs0 =>
    match skipIgnored cs0 with
    | [] => none
    | c :: cs =>
      if c = '[' then
        match parseVals fuel cs with
        | some (vs, rest) => some (.listV vs, rest)
        | none => none
      else if c = lbraceChar then
        match parseFlds fuel cs with
        | some (fs, rest) => some (.objV fs, rest)
        | none => none
      else if c = quoteChar then
        match parseStrBody cs with
        | some (body, rest) => some (.strV (String.mk body), rest)
        | none => none
      else if c.isDigit || c = '-' then parseNumber (c :: cs)
      else if isNameStart c then
        let (nm, rest) := (c :: cs).span isNameChar
        let s := String.mk nm
        if s = "true" then some (.boolV true, rest)
        else if s = "false" then some (.boolV false, rest)
        else if s = "null" then some (.nullV, rest)
        else some (.enumV s, rest)
      else none
/-- Elements of a list literal up to the closing bracket. -/
def parseVals : Nat → List Char → Option (GValues × List Char)
  | 0, _ => none
  | fuel + 1, cs0 =>
    match skipIgnored cs0 with
    | [] => none
    | c :: cs =>
      if c = ']' then some (.nil, cs)
      else
        match parseVal fuel (c :: cs) with
        | some (v, rest) =>
          match parseVals fuel rest with
          | some (vs, rest') => some (.cons v vs, rest')
          | none => none
        | none => none
/-- Fields of an object literal (`Name : Value`) up to the closing
brace. -/
def parseFlds : Nat → List Char → Option (GFields × List Char)
  | 0, _ => none
  | fuel + 1, cs0 =>
    match skipIgnored cs0 with
    | [] => none
    | c :: cs =>
      if c = rbraceChar then some (.nil, cs)
      else if isNameStart c then
        let (nm, rest) := (c :: cs).span isNameChar
        match skipIgnored rest with
        | ':' :: rest' =>
          match parseVal fuel rest' with
          | some (v, rest'') =>
            match parseFlds fuel rest'' with
            | some (fs, rest3) => some (.cons (String.mk nm) v fs, rest3)
            | none => none
          | none => none
        | _ => none
      else none
end

/-- Modelled from the spec: top-level entry of the external value
parser — exactly one value literal, then end of input. -/
def parse_value (s : String) : Option GValue :=
  match parseVal (s.length + 1) s.data with
  | some (v, rest) => if (skipIgnored rest).isEmpty then some v else none
  | none => none

/-- `parse_graphql_value_to_json(source)`: parse the literal text, then
run the visitor.  (The source's trailing `isinstance` fallback never
fires: every value node kind is replaced by its `leave_*` method.)
`none` models the fatal parse error on malformed literal text. -/
def parse_graphql_value_to_json (s : String) : Option JValue :=
  (parse_value s).bind visitValue

/-! ## Schema data model

`t['interfaces']` entries are objects of which only `['name']` is ever
read (`has_iface`, `write_type_object`), so interfaces are modelled as
their name lists; a JSON `null` interface list behaves exactly like an
empty one in every use (`not a_ifaces`, `t['interfaces'] or ()`), so it
is modelled as `[]`.  `kind` is a plain string, as in the JSON. -/

/-- A (possibly wrapped) type reference: `NON_NULL` / `LIST` wrappers
carry `ofType`; any concrete type is reached by its `kind`/`name`. -/
inductive TypeRef where
  | nonNull (ofType : TypeRef)
  | listOf (ofType : TypeRef)
  | named (kind : String) (name : String)
deriving DecidableEq

/-- An introspection argument: `defaultValue` is raw literal text (or a
`$variable` reference), absent = JSON null = Python `None`. -/
structure Arg where
  name : String
  type : TypeRef
  defaultValue : Option String := none
deriving DecidableEq

/-- An introspection field (output or input); named `FieldDef` because
`Field` is taken by Mathlib. -/
structure FieldDef where
  name : String
  type : TypeRef := .named "SCALAR" "String"
  args : List Arg := []
deriving DecidableEq

/-- One declared schema type. -/
structure TypeDef where
  name : String
  kind : String
  enumValues : List String := []
  fields : List FieldDef := []
  inputFields : List FieldDef := []
  interfaces : List String := []
  possibleTypes : List String := []
deriving DecidableEq

/-- The introspection object handed to `CodeGen`: the type list plus
the resolved root-type names (`get_path('queryType', 'name')` etc.,
absent or null = `none`). -/
structure IntroSchema where
  types : List TypeDef
  queryType : Option String := none
  mutationType : Option String := none
  subscriptionType : Option String := none
deriving DecidableEq

def builtin_types : List String := ["Int", "Float", "String", "Boolean", "ID"]

def datetime_types : List String := ["DateTime", "Date", "Time"]

def relay_types : List String := ["Node", "PageInfo"]

def builtin_enum_names : List String := ["__TypeKind", "__DirectiveLocation"]

def builtin_object_names : List String :=
  ["__Schema", "__Type", "__Field", "__Directive", "__EnumValue", "__InputValue"]

/-- Code-point comparison of strings, as Python compares `str` keys. -/
def strLtChars : List Char → List Char → Bool
  | [], [] => false
  | [], _ :: _ => true
  | _ :: _, [] => false
  | a :: as', b :: bs =>
    if a.toNat < b.toNat then true
    else if b.toNat < a.toNat then false
    else strLtChars as' bs

def pyStrLt (a b : String) : Bool := strLtChars a.data b.data

/-- Three-way comparator induced by `key=lambda x: x['name']` in
`sorted(schema['types'], ...)`. -/
def name_cmp (a b : TypeDef) : Int :=
  if pyStrLt a.name b.name then -1 else if pyStrLt b.name a.name then 1 else 0

/-- Stable insertion of `x` before the first element it does not sort
after. -/
def insertByCmp (cmp : TypeDef → TypeDef → Int) (x : TypeDef) :
    List TypeDef → List TypeDef
  | [] => [x]
  | y :: ys => if cmp x y ≤ 0 then x :: y :: ys else y :: insertByCmp cmp x ys

/-- Stable comparison sort, modelling Python's stable `sorted` /
`list.sort` with `functools.cmp_to_key(cmp)` (they agree whenever `cmp`
is a consistent comparator). -/
def sortByCmp (cmp : TypeDef → TypeDef → Int) : List TypeDef → List TypeDef
  | [] => []
  | x :: xs => insertByCmp cmp x (sortByCmp cmp xs)

/-- `CodeGen.has_iface(ifaces, name)`: linear scan for the name. -/
def has_iface (ifaces : List String) (name : String) : Bool :=
  ifaces.any (fun iface => iface == name)

/-- `CodeGen.depend_cmp(a, b)`: fields without interfaces first, then
order the interface implementor after the interface declaration. -/
def depend_cmp (a b : TypeDef) : Int :=
  let a_ifaces := a.interfaces
  let b_ifaces := b.interfaces
  if a_ifaces.isEmpty && !b_ifaces.isEmpty then -1
  else if !a_ifaces.isEmpty && b_ifaces.isEmpty then 1
  else if a_ifaces.isEmpty && b_ifaces.isEmpty then 0
  else if a_ifaces.length < b_ifaces.length then
    if has_iface a_ifaces b.name then 1
    else if has_iface b_ifaces a.name then -1
    else 0
  else
    if has_iface b_ifaces a.name then -1
    else if has_iface a_ifaces b.name then 1
    else 0

/-- The immutable part of `CodeGen.__init__`: name, sorted type list,
root types and the two `analyze()` feature flags. -/
structure CodeGenCtx where
  schema_name : String
  types : List TypeDef
  query_type : Option String
  mutation_type : Option String
  subscription_type : Option String
  uses_datetime : Bool
  uses_relay : Bool
deriving DecidableEq

/-- `CodeGen.__init__` + `analyze()` (the loop's early `break` does not
change which flags end up true). -/
def mkCodeGen (schema_name : String) (schema : IntroSchema) : CodeGenCtx :=
  let types := sortByCmp name_cmp schema.types
  { schema_name := schema_name
    types := types
    query_type := schema.queryType
    mutation_type := schema.mutationType
    subscription_type := schema.subscriptionType
    uses_datetime := types.any (fun t => t.name ∈ datetime_types)
    uses_relay := types.any (fun t => t.name ∈ relay_types) }

/-- `self.type_by_name[n]`: the dict comprehension keeps the last type
of each name, hence the reversed search. -/
def type_by_name (cg : CodeGenCtx) (n : String) : Option TypeDef :=
  cg.types.reverse.find? (fun t => t.name == n)

/-! ## Reference resolver (`CodeGen.get_type_ref`) -/

/-- Python `repr` of a GraphQL type name (names contain no quotes or
escapes). -/
def pyQuote (n : String) : String := "'" ++ n ++ "'"

/-- `CodeGen.get_type_ref(t, siblings)`, with `self.written_types`
passed explicitly. -/
def get_type_ref (written : List String) : TypeRef → List String → String
  | .nonNull ofType, siblings =>
    "sgqlc.types.non_null(" ++ get_type_ref written ofType siblings ++ ")"
  | .listOf ofType, siblings =>
    "sgqlc.types.list_of(" ++ get_type_ref written ofType siblings ++ ")"
  | .named _ name, siblings =>
    if name ∈ written ∧ name ∉ siblings then name else pyQuote name

/-! ## Argument emission (`CodeGen.write_arg`) -/

/-- The default carried by an emitted argument: a
`sgqlc.types.Variable(name)` reference or an embedded native value. -/
inductive ArgDefault where
  | var (name : String)
  | val (j : JValue)
deriving DecidableEq

/-- The content of the `(py_name, sgqlc.types.Arg(...))` tuple
`write_arg` writes (identifier sanitization by the external
`BaseItem._to_python_name` is out of scope, so the GraphQL name is
kept). -/
structure EmittedArg where
  name : String
  typeRef : String
  default : Option ArgDefault
deriving DecidableEq

/-- Whether the first argument list occurs at the head of the second. -/
def pyStartsWithChars : List Char → List Char → Bool
  | [], _ => true
  | _ :: _, [] => false
  | p :: ps, c :: cs => p == c && pyStartsWithChars ps cs

/-- Python `s.startswith(pre)`. -/
def pyStartsWith (s pre : String) : Bool := pyStartsWithChars pre.data s.data

/-- Python `s[1:]`. -/
def pyDropFirst (s : String) : String := String.mk s.data.tail

/-- `CodeGen.write_arg(arg, siblings)`: `if defval:` is a truthiness
test, `$`-prefixed text becomes a variable reference named by the text
after the `$` (`defval[1:]`), other non-empty text is evaluated by the
literal evaluator (`none` models the fatal parse error). -/
def write_arg (written siblings : List String) (a : Arg) : Option EmittedArg :=
  let tref := get_type_ref written a.type siblings
  match a.defaultValue with
  | none => some ⟨a.name, tref, none⟩
  | some s =>
    if s = "" then some ⟨a.name, tref, none⟩
    else if pyStartsWith s "$" then some ⟨a.name, tref, some (.var (pyDropFirst s))⟩
    else
      match parse_graphql_value_to_json s with
      | some j => some ⟨a.name, tref, some (.val j)⟩
      | none => none

/-! ## Schema loading (`load_schema`) -/

/-! JSON documents as `json.load` produces them (ordered objects). -/
mutual
inductive PyJson where
  | null
  | bool (b : Bool)
  | int (n : Int)
  | float (f : DecFloat)
  | str (s : String)
  | arr (xs : PyArr)
  | obj (kvs : PyObj)
deriving DecidableEq
inductive PyArr where
  | nil
  | cons (x : PyJson) (tl : PyArr)
deriving DecidableEq
inductive PyObj where
  | nil
  | cons (k : String) (v : PyJson) (tl : PyObj)
deriving DecidableEq
end

/-- `dict.get(k)`: the last binding of a duplicated JSON key wins in
`json.load`, so the last match is returned. -/
def PyObj.getKey : PyObj → String → Option PyJson
  | .nil, _ => none
  | .cons k v tl, k' =>
    match PyObj.getKey tl k' with
    | some r => some r
    | none => if k == k' then some v else none

def PyArr.isEmptyArr : PyArr → Bool
  | .nil => true
  | .cons _ _ => false

def PyObj.isEmptyObj : PyObj → Bool
  | .nil => true
  | .cons _ _ _ => false

/-- Python truthiness of a JSON value. -/
def pyTruthy : PyJson → Bool
  | .null => false
  | .bool b => b
  | .int n => n != 0
  | .float f => f.mant != 0
  | .str s => !(s == "")
  | .arr xs => !xs.isEmptyArr
  | .obj kvs => !kvs.isEmptyObj

/-- Truthiness of `dict.get`'s result (`None` when absent). -/
def truthyOpt : Option PyJson → Bool
  | none => false
  | some v => pyTruthy v

/-- How `load_schema` terminates abnormally: `SystemExit(msg)` for the
two schema-format errors, or the `AttributeError` Python raises when
`schema.get('data', {})` returns a non-dict and `.get('__schema', None)`
is called on it. -/
inductive LoadErr where
  | formatErr (msg : String)
  | attrErr
deriving DecidableEq

/-- `load_schema` after `json.load`: accept a raw introspection object
(truthy `types`), a `data.__schema` envelope, or a `__schema` envelope,
else fail. -/
def load_schema (schema : PyJson) : Except LoadErr PyJson :=
  match schema with
  | .obj kvs =>
    if truthyOpt (kvs.getKey "types") then .ok (.obj kvs)
    else
      match (kvs.getKey "data").getD (.obj .nil) with
      | .obj dkvs =>
        if truthyOpt (dkvs.getKey "__schema") then
          .ok ((dkvs.getKey "__schema").getD .null)
        else if truthyOpt (kvs.getKey "__schema") then
          .ok ((kvs.getKey "__schema").getD .null)
        else .error (.formatErr "schema must be introspection object or query result")
      | _ => .error .attrErr
  | _ => .error (.formatErr "schema must be a JSON object")

/-- Discriminates the `SystemExit` schema-format failures of
`load_schema` from every other outcome. -/
def isFormatErr : Except LoadErr PyJson → Bool
  | .error (.formatErr _) => true
  | _ => false

/-! ## Emission pipeline (`CodeGen.write` and friends)

Output is modelled at declaration granularity: the textual template
layer is out of scope (spec §1), so each write of a type declaration
becomes one `Event.decl` carrying the data the templates interpolate.
A failed Python `assert` (or a `KeyError` on `type_by_name`) unwinds
the run; this is modelled by an `err` flag in the state — once set,
every later emission is a no-op, so `out` is exactly the partial output
produced before the abort. -/

/-- One write to the output sink. -/
inductive Event where
  | banner (text : String)
  | headerE (uses_datetime uses_relay : Bool)
  | relayFixup
  | decl (name : String) (kind : String) (interfaces : List String) (items : List String)
  | entryPoints (q m s : Option String)
deriving DecidableEq

/-- Abnormal termination of the generation run. -/
inductive GenError where
  | ifaceNotWritten (iface : String)
  | missingType (name : String)
  | unclaimedTypes
deriving DecidableEq

/-- The only mutable state: the emitted-names set `written_types`, the
output stream, and the abort flag. -/
structure GenState where
  written_types : List String := []
  out : List Event := []
  err : Option GenError := none
deriving DecidableEq

/-- `CodeGen.__init__` does `self.written_types = set()`. -/
def initState : GenState := {}

/-- `set.add`: append if absent (membership is all that is consulted). -/
def addWritten (w : List String) (n : String) : List String :=
  if n ∈ w then w else w ++ [n]

/-- `CodeGen.write_banner`. -/
def write_banner (st : GenState) (text : String) : GenState :=
  if st.err.isSome then st else { st with out := st.out ++ [.banner text] }

/-- `CodeGen.write_type_enum`: built-in introspection enums are skipped
entirely; otherwise the enum declaration is written and the name
recorded. -/
def write_type_enum (st : GenState) (t : TypeDef) : GenState :=
  if st.err.isSome then st
  else if t.name ∈ builtin_enum_names then st
  else
    { st with
      out := st.out ++ [.decl t.name "ENUM" [] t.enumValues]
      written_types := addWritten st.written_types t.name }

/-- `CodeGen.write_type_scalar`: every scalar (builtin alias, datetime
alias or plain scalar class — a formatting distinction) is written and
recorded. -/
def write_type_scalar (st : GenState) (t : TypeDef) : GenState :=
  if st.err.isSome then st
  else
    { st with
      out := st.out ++ [.decl t.name "SCALAR" [] []]
      written_types := addWritten st.written_types t.name }

/-- `CodeGen.write_type_union`. -/
def write_type_union (st : GenState) (t : TypeDef) : GenState :=
  if st.err.isSome then st
  else
    { st with
      out := st.out ++ [.decl t.name "UNION" [] t.possibleTypes]
      written_types := addWritten st.written_types t.name }

/-- `CodeGen.write_type_container`: writes the class body (own fields)
and then records the name.  The `interfaces` argument carries the
interface part of `bases` (the leading capability base is a formatting
detail). -/
def write_type_container (st : GenState) (name kind : String)
    (ifaces : List String) (own_fields : List FieldDef) : GenState :=
  if st.err.isSome then st
  else
    { st with
      out := st.out ++ [.decl name kind ifaces (own_fields.map FieldDef.name)]
      written_types := addWritten st.written_types name }

/-- `CodeGen.write_type_input_object`. -/
def write_type_input_object (st : GenState) (t : TypeDef) : GenState :=
  write_type_container st t.name "INPUT_OBJECT" [] t.inputFields

/-- `CodeGen.write_type_interface`. -/
def write_type_interface (st : GenState) (t : TypeDef) : GenState :=
  write_type_container st t.name "INTERFACE" [] t.fields

/-- The loop over `t['interfaces']` in `write_type_object`: each
interface must already be written (`assert iface_name in
self.written_types`), is looked up in `type_by_name` (a miss is a
`KeyError`), and contributes its field names to `inherited_fields`. -/
def collectInherited (cg : CodeGenCtx) (written : List String) :
    List String → Except GenError (List String)
  | [] => .ok []
  | i :: rest =>
    if i ∈ written then
      match type_by_name cg i with
      | some ty =>
        match collectInherited cg written rest with
        | .ok more => .ok (ty.fields.map FieldDef.name ++ more)
        | .error e => .error e
      | none => .error (.missingType i)
    else .error (.ifaceNotWritten i)

/-- `CodeGen.write_type_object`: builtin meta-objects are skipped;
otherwise inherited field names are collected from the implemented
interfaces and the own-field tuple keeps exactly the fields whose name
is not inherited. -/
def write_type_object (cg : CodeGenCtx) (st : GenState) (t : TypeDef) : GenState :=
  if st.err.isSome then st
  else if t.name ∈ builtin_object_names then st
  else
    match collectInherited cg st.written_types t.interfaces with
    | .error e => { st with err := some e }
    | .ok inherited =>
      let own_fields := t.fields.filter (fun f => f.name ∉ inherited)
      write_type_container st t.name "OBJECT" t.interfaces own_fields

/-- Phase 1 dispatch (`mapper_basic`): ENUM and SCALAR are handled, the
rest is appended to `remaining`. -/
def phase_basic_step (acc : GenState × List TypeDef) (t : TypeDef) :
    GenState × List TypeDef :=
  if t.kind == "ENUM" then (write_type_enum acc.1 t, acc.2)
  else if t.kind == "SCALAR" then (write_type_scalar acc.1 t, acc.2)
  else (acc.1, acc.2 ++ [t])

/-- Phase 2 dispatch (`mapper_input_containers`). -/
def phase_input_step (acc : GenState × List TypeDef) (t : TypeDef) :
    GenState × List TypeDef :=
  if t.kind == "INPUT_OBJECT" then (write_type_input_object acc.1 t, acc.2)
  else (acc.1, acc.2 ++ [t])

/-- Phase 3 dispatch (`mapper_output_containers`). -/
def phase_output_step (cg : CodeGenCtx) (acc : GenState × List TypeDef)
    (t : TypeDef) : GenState × List TypeDef :=
  if t.kind == "INTERFACE" then (write_type_interface acc.1 t, acc.2)
  else if t.kind == "OBJECT" then (write_type_object cg acc.1 t, acc.2)
  else (acc.1, acc.2 ++ [t])

/-- Phase 4 dispatch (`mapper_post`). -/
def phase_post_step (acc : GenState × List TypeDef) (t : TypeDef) :
    GenState × List TypeDef :=
  if t.kind == "UNION" then (write_type_union acc.1 t, acc.2)
  else (acc.1, acc.2 ++ [t])

/-- `CodeGen.write_types` up to (but excluding) the final
`assert not remaining`: the four sequential phases, with the
output-objects-and-interfaces bucket sorted by `depend_cmp` before
phase 3.  Returns the state and the remainder left after phase 4. -/
def write_types_core (cg : CodeGenCtx) (st0 : GenState) :
    GenState × List TypeDef :=
  let st1 := write_banner st0 "Scalars and Enumerations"
  let r1 := cg.types.foldl phase_basic_step (st1, [])
  let st2 := write_banner r1.1 "Input Objects"
  let r2 := r1.2.foldl phase_input_step (st2, [])
  let rem3 := sortByCmp depend_cmp r2.2
  let st3 := write_banner r2.1 "Output Objects and Interfaces"
  let r3 := rem3.foldl (phase_output_step cg) (st3, [])
  let st4 := write_banner r3.1 "Unions"
  r3.2.foldl phase_post_step (st4, [])

/-- `CodeGen.write_types` including the final `assert not remaining`
(which only runs when no earlier abort happened). -/
def write_types (cg : CodeGenCtx) (st0 : GenState) : GenState :=
  let r := write_types_core cg st0
  if r.2.isEmpty then r.1
  else if r.1.err.isSome then r.1
  else { r.1 with err := some .unclaimedTypes }

/-- `CodeGen.write_header`: imports, schema declaration and (when relay
conventions are in use) the Node/PageInfo unexport fixup. -/
def write_header (cg : CodeGenCtx) (st : GenState) : GenState :=
  if st.err.isSome then st
  else
    let st' := { st with out := st.out ++ [.headerE cg.uses_datetime cg.uses_relay] }
    if cg.uses_relay then { st' with out := st'.out ++ [.relayFixup] } else st'

/-- `CodeGen.write_entry_points`. -/
def write_entry_points (cg : CodeGenCtx) (st : GenState) : GenState :=
  if st.err.isSome then st
  else
    let st' := write_banner st "Schema Entry Points"
    { st' with
      out := st'.out ++ [.entryPoints cg.query_type cg.mutation_type cg.subscription_type] }

/-- `CodeGen.write`. -/
def codegen_write (cg : CodeGenCtx) : GenState :=
  write_entry_points cg (write_types cg (write_header cg initState))

/-- The whole pipeline on an introspection schema (as `main` drives it
after `load_schema`). -/
def run_codegen (schema_name : String) (schema : IntroSchema) : GenState :=
  codegen_write (mkCodeGen schema_name schema)

/-- The six kinds claimed by the four phases. -/
def knownKinds : List String :=
  ["SCALAR", "ENUM", "INPUT_OBJECT", "OBJECT", "INTERFACE", "UNION"]

/-- The kind sets of the four sequential phases. -/
def phaseKinds : List (List String) :=
  [["ENUM", "SCALAR"], ["INPUT_OBJECT"], ["INTERFACE", "OBJECT"], ["UNION"]]

/-- In how many phases a kind is claimed. -/
def claimCount (k : String) : Nat :=
  (phaseKinds.filter (fun ks => k ∈ ks)).length

/-- There is a declaration named `n` at position `k` of the output. -/
def declNameAt (out : List Event) (k : Nat) (n : String) : Prop :=
  ∃ kind ifs its, out[k]? = some (.decl n kind ifs its)

/-- Bool-level check for `declNameAt`. -/
def declCheck (out : List Event) (k : Nat) (n : String) : Bool :=
  match out[k]? with
  | some (.decl n' _ _ _) => n' == n
  | _ => false

theorem declNameAt_iff_check (out : List Event) (k : Nat) (n : String) :
    declNameAt out k n ↔ declCheck out k n = true := by
  unfold declNameAt declCheck
  cases h : out[k]? with
  | none => simp
  | some e =>
    cases e with
    | decl n' kind ifs its =>
      simp only [Option.some.injEq, Event.decl.injEq, beq_iff_eq]
      constructor
      · rintro ⟨a, b, c, hn, _hk, _hi, _hs⟩
        exact hn
      · rintro rfl
        exact ⟨kind, ifs, its, rfl, rfl, rfl, rfl⟩
    | banner t => simp
    | headerE a b => simp
    | relayFixup => simp
    | entryPoints q m s => simp

instance (out : List Event) (k : Nat) (n : String) :
    Decidable (declNameAt out k n) :=
  decidable_of_iff' _ (declNameAt_iff_check out k n)

/-! ## Helper lemmas for the literal evaluator -/

/-- Keys of a field list, in order. -/
def JFields.keys : JFields → List String
  | .nil => []
  | .cons k _ tl => k :: JFields.keys tl

theorem JFields.append_nil : ∀ l : JFields, l.append .nil = l
  | .nil => rfl
  | .cons k v tl => by simp [JFields.append, JFields.append_nil tl]

theorem JFields.append_assoc : ∀ l m r : JFields,
    (l.append m).append r = l.append (m.append r)
  | .nil, _, _ => rfl
  | .cons k v tl, m, r => by simp [JFields.append, JFields.append_assoc tl m r]

theorem JFields.hasKey_append : ∀ (l r : JFields) (k : String),
    (l.append r).hasKey k = (l.hasKey k || r.hasKey k)
  | .nil, r, k => by simp [JFields.append, JFields.hasKey]
  | .cons k' v tl, r, k => by
    simp [JFields.append, JFields.hasKey, JFields.hasKey_append tl r k, Bool.or_assoc]

theorem pyDictGo_disjoint : ∀ (ps : JFields) (acc : JFields), ps.keys.Nodup →
    (∀ k ∈ ps.keys, acc.hasKey k = false) → pyDictGo acc ps = acc.append ps
  | .nil, acc, _, _ => by simp [pyDictGo, JFields.append_nil]
  | .cons k v tl, acc, hnod, hdisj => by
    have hk : acc.hasKey k = false := hdisj k (by simp [JFields.keys])
    have hnod' := List.nodup_cons.mp (by simpa [JFields.keys] using hnod)
    have step : pyDictGo acc (.cons k v tl) =
        pyDictGo (acc.append (.cons k v .nil)) tl := by
      simp [pyDictGo, pyDictInsert, hk]
    rw [step, pyDictGo_disjoint tl (acc.append (.cons k v .nil)) hnod'.2]
    · rw [JFields.append_assoc]
      rfl
    · intro k' hk'
      rw [JFields.hasKey_append]
      have h1 : acc.hasKey k' = false := hdisj k' (by simp [JFields.keys, hk'])
      have h2 : (k == k') = false := by
        have : k ≠ k' := fun he => hnod'.1 (he ▸ hk')
        simpa using this
      simp [h1, JFields.hasKey, h2]

/-- `dict(pairs)` is the identity on pair lists with distinct keys. -/
theorem pyDict_nodup (ps : JFields) (h : ps.keys.Nodup) : pyDict ps = ps := by
  have := pyDictGo_disjoint ps .nil h (fun k _ => rfl)
  simpa [pyDict, JFields.append] using this

/-- C3: literal evaluation is a pure post-order reduction — integer
literals yield integers, float literals floats, string literals
strings, booleans booleans, null the null value, enum values their bare
name string, list literals ordered lists of the evaluated elements,
object literals ordered mappings of the evaluated (key, value) pairs in
written field order — and the eight sample literals evaluate to the
corresponding native values. -/
theorem literal_evaluation :
    (∀ s n, pyInt s = some n → visitValue (.intV s) = some (.jint n)) ∧
    (∀ s f, pyFloat s = some f → visitValue (.floatV s) = some (.jfloat f)) ∧
    (∀ s, visitValue (.strV s) = some (.jstr s)) ∧
    (∀ b, visitValue (.boolV b) = some (.jbool b)) ∧
    visitValue .nullV = some .jnull ∧
    (∀ s, visitValue (.enumV s) = some (.jstr s)) ∧
    (∀ vs js, visitValues vs = some js → visitValue (.listV vs) = some (.jlist js)) ∧
    (∀ fs js, visitFields fs = some js → js.keys.Nodup →
        visitValue (.objV fs) = some (.jobj js)) ∧
    parse_graphql_value_to_json "42" = some (.jint 42) ∧
    parse_graphql_value_to_json "3.14" = some (.jfloat ⟨314, -2⟩) ∧
    parse_graphql_value_to_json "\"hi\"" = some (.jstr "hi") ∧
    parse_graphql_value_to_json "true" = some (.jbool true) ∧
    parse_graphql_value_to_json "null" = some .jnull ∧
    parse_graphql_value_to_json "[1,2,3]" =
      some (.jlist (.cons (.jint 1) (.cons (.jint 2) (.cons (.jint 3) .nil)))) ∧
    parse_graphql_value_to_json "\x7ba: 1, b: \"x\"\x7d" =
      some (.jobj (.cons "a" (.jint 1) (.cons "b" (.jstr "x") .nil))) ∧
    parse_graphql_value_to_json "SOME_ENUM_VALUE" = some (.jstr "SOME_ENUM_VALUE") := by
  refine ⟨?_, ?_, fun s => rfl, fun b => rfl, rfl, fun s => rfl, ?_, ?_,
    by decide, by decide, by decide, by decide, by decide, by decide, by decide, by decide⟩
  · intro s n h; simp [visitValue, h]
  · intro s f h; simp [visitValue, h]
  · intro vs js h; simp [visitValue, h]
  · intro fs js h hnod
    simp [visitValue, h, pyDict_nodup js hnod]

/-- C3 witness: the object-literal conjunct applied at a concrete
two-field object. -/
theorem literal_evaluation_witness :
    visitValue (.objV (.cons "a" (.intV "1") (.cons "b" (.strV "x") .nil))) =
      some (.jobj (.cons "a" (.jint 1) (.cons "b" (.jstr "x") .nil))) :=
  literal_evaluation.2.2.2.2.2.2.2.1
    (.cons "a" (.intV "1") (.cons "b" (.strV "x") .nil))
    (.cons "a" (.jint 1) (.cons "b" (.jstr "x") .nil)) (by decide) (by decide)

/-- C4: reference resolution is recursive on the wrapper kinds, a
concrete type resolves to a bare name exactly when already written and
not shadowed by a sibling field name (otherwise to a quoted forward
reference), and the triple-wrapped String example resolves to the
non-null(list(non-null(...))) wrapping of the base resolution whatever
the emission state. -/
theorem reference_resolution :
    (∀ (written siblings : List String) (t : TypeRef),
        get_type_ref written (.nonNull t) siblings =
          "sgqlc.types.non_null(" ++ get_type_ref written t siblings ++ ")") ∧
    (∀ (written siblings : List String) (t : TypeRef),
        get_type_ref written (.listOf t) siblings =
          "sgqlc.types.list_of(" ++ get_type_ref written t siblings ++ ")") ∧
    (∀ (written siblings : List String) (k n : String), n ∈ written → n ∉ siblings →
        get_type_ref written (.named k n) siblings = n) ∧
    (∀ (written siblings : List String) (k n : String), n ∉ written ∨ n ∈ siblings →
        get_type_ref written (.named k n) siblings = pyQuote n) ∧
    (∀ written siblings : List String,
        get_type_ref written (.nonNull (.listOf (.nonNull (.named "SCALAR" "String")))) siblings =
          "sgqlc.types.non_null(sgqlc.types.list_of(sgqlc.types.non_null(" ++
            get_type_ref written (.named "SCALAR" "String") siblings ++ ")))") := by
  refine ⟨fun w s t => rfl, fun w s t => rfl, ?_, ?_, ?_⟩
  · intro w s k n h1 h2
    simp [get_type_ref, h1, h2]
  · intro w s k n h
    have : ¬(n ∈ w ∧ n ∉ s) := by tauto
    simp only [get_type_ref, if_neg this]
  · intro w s
    by_cases h : "String" ∈ w ∧ "String" ∉ s
    · simp only [get_type_ref, if_pos h]
      rfl
    · simp only [get_type_ref, if_neg h]
      rfl

/-- C4 witness: the bare-name case at a concrete emission state. -/
theorem reference_resolution_witness :
    get_type_ref ["String"] (.named "SCALAR" "String") [] = "String" :=
  reference_resolution.2.2.1 ["String"] [] "SCALAR" "String" (by decide) (by decide)

/-- C8 counterexample: an argument whose default value is present but
is the empty string (`defaultValue = ""`): `if defval:` is false, so no
variable reference is produced and the literal evaluator is never
invoked — the emitted default is `None`, refuting the claim that every
present default is evaluated or turned into a variable reference. -/
theorem write_arg_truthiness_counterexample :
    ¬ ∀ (written siblings : List String) (a : Arg),
        a.defaultValue.isSome = true →
        ∃ (r : EmittedArg) (d : ArgDefault),
          write_arg written siblings a = some r ∧ r.default = some d := by
  intro h
  obtain ⟨r, d, hr, hd⟩ :=
    h [] [] { name := "x", type := .named "SCALAR" "Int", defaultValue := some "" } rfl
  rw [show write_arg [] []
        { name := "x", type := .named "SCALAR" "Int", defaultValue := some "" } =
        some ⟨"x", pyQuote "Int", none⟩ from by decide] at hr
  cases hr
  simp at hd

/-- C8 (amended): for every output-field argument, a *non-empty*
present default value is emitted as a variable reference (text starting
with `$`, named by the text after it) or as the native value obtained
from the literal evaluator; an absent — or present but empty, since the
code tests truthiness rather than presence — default value is emitted
as no default, with the evaluator never invoked. -/
theorem write_arg_default_handling (written siblings : List String) (a : Arg) :
    (a.defaultValue = none ∨ a.defaultValue = some "" →
        write_arg written siblings a =
          some ⟨a.name, get_type_ref written a.type siblings, none⟩) ∧
    (∀ s, a.defaultValue = some s → s ≠ "" → pyStartsWith s "$" = true →
        write_arg written siblings a =
          some ⟨a.name, get_type_ref written a.type siblings, some (.var (pyDropFirst s))⟩) ∧
    (∀ s, a.defaultValue = some s → s ≠ "" → pyStartsWith s "$" = false →
        write_arg written siblings a =
          (parse_graphql_value_to_json s).map
            (fun j => ⟨a.name, get_type_ref written a.type siblings, some (.val j)⟩)) := by
  refine ⟨?_, ?_, ?_⟩
  · rintro (h | h) <;> simp [write_arg, h]
  · intro s h hne hpre
    simp [write_arg, h, hne, hpre]
  · intro s h hne hpre
    simp only [write_arg, h, if_neg hne, hpre, Bool.false_eq_true, if_false]
    cases parse_graphql_value_to_json s <;> simp

/-- C8 witness: a `$`-prefixed default becomes a variable reference. -/
theorem write_arg_default_handling_witness :
    write_arg [] [] { name := "v", type := .named "SCALAR" "Int", defaultValue := some "$x" } =
      some ⟨"v", pyQuote "Int", some (.var "x")⟩ :=
  (write_arg_default_handling [] []
    { name := "v", type := .named "SCALAR" "Int", defaultValue := some "$x" }).2.1
    "$x" rfl (by decide) (by decide)

deriving instance DecidableEq for Except

/-- C9: a structured document whose `types` key maps to an empty list
(and that has no `data.__schema` and no `__schema`) is rejected with
the schema-format error — the first shape check tests truthiness of the
`types` value, and an empty list is falsy. -/
theorem load_schema_rejects_empty_types :
    load_schema (.obj (.cons "types" (.arr .nil) .nil)) =
      .error (.formatErr "schema must be introspection object or query result") := by
  decide

/-- C5 counterexample: the document `{"data": 5}` is a structured
object matching none of the three shapes, yet the run does not fail
with the schema-format `SystemExit`: `schema.get('data', {})` returns
`5` and `.get('__schema', None)` on it raises `AttributeError`. -/
theorem load_schema_attr_error_counterexample :
    load_schema (.obj (.cons "data" (.int 5) .nil)) = .error .attrErr ∧
      isFormatErr (load_schema (.obj (.cons "data" (.int 5) .nil))) = false := by
  decide

/-- C5 (amended): `load_schema` accepts exactly the three document
shapes — truthy `types` (returning the document itself), truthy
`data.__schema` (returning that inner object), truthy `__schema`
(returning that inner object) — and it fails with the schema-format
`SystemExit` iff the document is not a structured object, or it is one,
no shape matches *and* the `data` entry (defaulting to `{}`) is a
structured object; when a non-matching document carries a
non-structured `data` entry the run instead aborts with an
`AttributeError`.  On failure an `Except.error` carries no schema, so
nothing is processed. -/
theorem load_schema_shapes (doc : PyJson) :
    (∀ kvs, doc = .obj kvs → truthyOpt (kvs.getKey "types") = true →
        load_schema doc = .ok doc) ∧
    (∀ kvs dkvs, doc = .obj kvs → truthyOpt (kvs.getKey "types") = false →
        (kvs.getKey "data").getD (.obj .nil) = .obj dkvs →
        truthyOpt (dkvs.getKey "__schema") = true →
        load_schema doc = .ok ((dkvs.getKey "__schema").getD .null)) ∧
    (∀ kvs dkvs, doc = .obj kvs → truthyOpt (kvs.getKey "types") = false →
        (kvs.getKey "data").getD (.obj .nil) = .obj dkvs →
        truthyOpt (dkvs.getKey "__schema") = false →
        truthyOpt (kvs.getKey "__schema") = true →
        load_schema doc = .ok ((kvs.getKey "__schema").getD .null)) ∧
    (isFormatErr (load_schema doc) = true ↔
      (∀ kvs, doc ≠ .obj kvs) ∨
        ∃ kvs dkvs, doc = .obj kvs ∧
          truthyOpt (kvs.getKey "types") = false ∧
          (kvs.getKey "data").getD (.obj .nil) = .obj dkvs ∧
          truthyOpt (dkvs.getKey "__schema") = false ∧
          truthyOpt (kvs.getKey "__schema") = false) := by
  refine ⟨?_, ?_, ?_, ?_⟩
  · rintro kvs rfl ht
    simp [load_schema, ht]
  · rintro kvs dkvs rfl ht hD hs
    simp only [load_schema, ht, Bool.false_eq_true, if_false]
    rw [hD]
    simp [hs]
  · rintro kvs dkvs rfl ht hD hs1 hs2
    simp only [load_schema, ht, Bool.false_eq_true, if_false]
    rw [hD]
    simp [hs1, hs2]
  · cases doc with
    | null => simp [load_schema, isFormatErr]
    | bool b => simp [load_schema, isFormatErr]
    | int n => simp [load_schema, isFormatErr]
    | float f => simp [load_schema, isFormatErr]
    | str s' => simp [load_schema, isFormatErr]
    | arr xs => simp [load_schema, isFormatErr]
    | obj kvs =>
      simp only [load_schema]
      rcases Bool.eq_false_or_eq_true (truthyOpt (kvs.getKey "types")) with ht | ht
      · rw [if_pos ht]
        simp only [isFormatErr, Bool.false_eq_true, false_iff]
        rintro (h | ⟨kvs', dkvs', heq, h1, h2⟩)
        · exact absurd rfl (h kvs)
        · cases heq
          rw [ht] at h1
          cases h1
      · rw [if_neg (by simp [ht])]
        rcases hD : (kvs.getKey "data").getD (.obj .nil) with _ | b | n | f | s' | xs | dkvs
        case obj =>
          dsimp only
          rcases Bool.eq_false_or_eq_true (truthyOpt (dkvs.getKey "__schema")) with hs1 | hs1
          · rw [if_pos hs1]
            simp only [isFormatErr, Bool.false_eq_true, false_iff]
            rintro (h | ⟨kvs', dkvs', heq, h1, h2, h3, h4⟩)
            · exact absurd rfl (h kvs)
            · cases heq
              rw [hD] at h2
              cases h2
              rw [hs1] at h3
              cases h3
          · rw [if_neg (by simp [hs1])]
            rcases Bool.eq_false_or_eq_true (truthyOpt (kvs.getKey "__schema")) with hs2 | hs2
            · rw [if_pos hs2]
              simp only [isFormatErr, Bool.false_eq_true, false_iff]
              rintro (h | ⟨kvs', dkvs', heq, h1, h2, h3, h4⟩)
              · exact absurd rfl (h kvs)
              · cases heq
                rw [hs2] at h4
                cases h4
            · rw [if_neg (by simp [hs2])]
              simp only [isFormatErr]
              constructor
              · intro _
                exact Or.inr ⟨kvs, dkvs, rfl, ht, hD, hs1, hs2⟩
              · intro _
                trivial
        all_goals
          dsimp only
          simp only [isFormatErr, Bool.false_eq_true, false_iff]
          rintro (h | ⟨kvs', dkvs', heq, h1, h2, h3, h4⟩)
          · exact absurd rfl (h kvs)
          · cases heq
            rw [hD] at h2
            cases h2

/-- C5 witness: a `data.__schema` envelope is normalized to the inner
introspection object. -/
theorem load_schema_shapes_witness :
    load_schema (.obj (.cons "data"
        (.obj (.cons "__schema" (.obj (.cons "types" (.arr (.cons .null .nil)) .nil)) .nil))
        .nil)) =
      .ok (.obj (.cons "types" (.arr (.cons .null .nil)) .nil)) :=
  (load_schema_shapes _).2.1
    (.cons "data"
      (.obj (.cons "__schema" (.obj (.cons "types" (.arr (.cons .null .nil)) .nil)) .nil))
      .nil)
    (.cons "__schema" (.obj (.cons "types" (.arr (.cons .null .nil)) .nil)) .nil)
    rfl (by decide) (by decide) (by decide)

/-- C10: `depend_cmp` is antisymmetric on every pair that is not
mutually implementing — `depend_cmp a b = - depend_cmp b a` — and the
equality fails for a concrete cyclic pair (two types with equal-length
interface lists each naming the other). -/
theorem depend_cmp_antisymmetry :
    (∀ a b : TypeDef,
        ¬ (has_iface a.interfaces b.name = true ∧ has_iface b.interfaces a.name = true) →
        depend_cmp a b = - depend_cmp b a) ∧
      ¬ (depend_cmp { name := "CycA", kind := "OBJECT", interfaces := ["CycB"] }
            { name := "CycB", kind := "OBJECT", interfaces := ["CycA"] } =
          - depend_cmp { name := "CycB", kind := "OBJECT", interfaces := ["CycA"] }
              { name := "CycA", kind := "OBJECT", interfaces := ["CycB"] }) := by
  constructor
  · intro a b hnm
    unfold depend_cmp
    dsimp only
    rcases Nat.lt_trichotomy a.interfaces.length b.interfaces.length with hl | hl | hl <;>
      cases hA : a.interfaces.isEmpty <;> cases hB : b.interfaces.isEmpty <;>
        cases hab : has_iface a.interfaces b.name <;>
        cases hba : has_iface b.interfaces a.name <;>
        simp_all [List.isEmpty_iff, has_iface]
  · decide

/-- C10 witness: the antisymmetry part at a concrete non-cyclic pair
(an object implementing an interface). -/
theorem depend_cmp_antisymmetry_witness :
    depend_cmp { name := "AcycA", kind := "OBJECT", interfaces := ["AcycI"] }
        { name := "AcycI", kind := "INTERFACE" } =
      - depend_cmp { name := "AcycI", kind := "INTERFACE" }
          { name := "AcycA", kind := "OBJECT", interfaces := ["AcycI"] } :=
  depend_cmp_antisymmetry.1 _ _ (by decide)

/-! ## Emission invariants -/

theorem getElem?_append_lt {α : Type} {l l' : List α} {k : Nat} (h : k < l.length) :
    (l ++ l')[k]? = l[k]? := by
  rw [List.getElem?_append, if_pos h]

/-- Every recorded name has a declaration in the output. -/
def WrittenCovered (st : GenState) : Prop :=
  ∀ n ∈ st.written_types, ∃ k, declNameAt st.out k n

/-- Every emitted OBJECT declaration has each of its interfaces
declared strictly earlier in the output. -/
def IfacesEarlier (out : List Event) : Prop :=
  ∀ j n ifs its, out[j]? = some (.decl n "OBJECT" ifs its) →
    ∀ i ∈ ifs, ∃ k, k < j ∧ declNameAt out k i

def EmitInv (st : GenState) : Prop := WrittenCovered st ∧ IfacesEarlier st.out

theorem declNameAt_lt {out : List Event} {k : Nat} {n : String}
    (h : declNameAt out k n) : k < out.length := by
  obtain ⟨kind, ifs, its, hk⟩ := h
  by_contra hge
  rw [List.getElem?_eq_none (le_of_not_lt hge)] at hk
  cases hk

theorem declNameAt_mono {out : List Event} (ex : List Event) {k : Nat} {n : String}
    (h : declNameAt out k n) : declNameAt (out ++ ex) k n := by
  obtain ⟨kind, ifs, its, hk⟩ := h
  exact ⟨kind, ifs, its, by
    rw [getElem?_append_lt (declNameAt_lt ⟨kind, ifs, its, hk⟩)]
    exact hk⟩

theorem ifacesEarlier_snoc {out : List Event} {e : Event}
    (h : IfacesEarlier out)
    (he : ∀ n ifs its, e = .decl n "OBJECT" ifs its →
        ∀ i ∈ ifs, ∃ k, k < out.length ∧ declNameAt out k i) :
    IfacesEarlier (out ++ [e]) := by
  intro j n ifs its hj i hi
  rcases lt_trichotomy j out.length with hlt | heq | hgt
  · rw [getElem?_append_lt hlt] at hj
    obtain ⟨k, hk, hdk⟩ := h j n ifs its hj i hi
    exact ⟨k, hk, declNameAt_mono [e] hdk⟩
  · subst heq
    rw [List.getElem?_concat_length] at hj
    obtain ⟨k, hk, hdk⟩ := he n ifs its (Option.some.inj hj) i hi
    exact ⟨k, hk, declNameAt_mono [e] hdk⟩
  · rw [List.getElem?_eq_none (by simpa using hgt)] at hj
    cases hj

theorem mem_addWritten {w : List String} {n m : String} :
    m ∈ addWritten w n ↔ m ∈ w ∨ m = n := by
  unfold addWritten
  split_ifs with h
  · constructor
    · exact Or.inl
    · rintro (hm | rfl)
      · exact hm
      · exact h
  · simp

/-- Appending a non-declaration event preserves the invariant. -/
theorem emitInv_emit_plain (st : GenState) (e : Event)
    (hInv : EmitInv st)
    (he : ∀ n ifs its, e ≠ .decl n "OBJECT" ifs its) :
    EmitInv { st with out := st.out ++ [e] } := by
  refine ⟨?_, ?_⟩
  · intro n hn
    obtain ⟨k, hk⟩ := hInv.1 n hn
    exact ⟨k, declNameAt_mono [e] hk⟩
  · exact ifacesEarlier_snoc hInv.2
      (fun n ifs its heq => absurd heq (he n ifs its))

/-- Appending a declaration whose interface list is already covered by
`written_types` preserves the invariant. -/
theorem emitInv_emit_decl (st : GenState) (n kind : String) (ifs its : List String)
    (hInv : EmitInv st) (hifs : ∀ i ∈ ifs, i ∈ st.written_types) :
    EmitInv { st with out := st.out ++ [.decl n kind ifs its],
                      written_types := addWritten st.written_types n } := by
  refine ⟨?_, ?_⟩
  · intro m hm
    rcases mem_addWritten.mp hm with hm | rfl
    · obtain ⟨k, hk⟩ := hInv.1 m hm
      exact ⟨k, declNameAt_mono [_] hk⟩
    · exact ⟨st.out.length, kind, ifs, its, List.getElem?_concat_length _ _⟩
  · refine ifacesEarlier_snoc hInv.2 ?_
    intro n' ifs' its' heq i hi
    cases heq
    obtain ⟨k, hk⟩ := hInv.1 i (hifs i hi)
    exact ⟨k, declNameAt_lt hk, hk⟩

theorem emitInv_banner (st : GenState) (text : String) (hInv : EmitInv st) :
    EmitInv (write_banner st text) := by
  unfold write_banner
  split_ifs
  · exact hInv
  · exact emitInv_emit_plain st _ hInv (fun n ifs its h => by cases h)

theorem emitInv_enum (st : GenState) (t : TypeDef) (hInv : EmitInv st) :
    EmitInv (write_type_enum st t) := by
  unfold write_type_enum
  split_ifs
  · exact hInv
  · exact hInv
  · exact emitInv_emit_decl st t.name "ENUM" [] t.enumValues hInv (by simp)

theorem emitInv_scalar (st : GenState) (t : TypeDef) (hInv : EmitInv st) :
    EmitInv (write_type_scalar st t) := by
  unfold write_type_scalar
  split_ifs
  · exact hInv
  · exact emitInv_emit_decl st t.name "SCALAR" [] [] hInv (by simp)

theorem emitInv_union (st : GenState) (t : TypeDef) (hInv : EmitInv st) :
    EmitInv (write_type_union st t) := by
  unfold write_type_union
  split_ifs
  · exact hInv
  · exact emitInv_emit_decl st t.name "UNION" [] t.possibleTypes hInv (by simp)

theorem emitInv_container (st : GenState) (name kind : String) (ifaces : List String)
    (own : List FieldDef) (hInv : EmitInv st)
    (hifs : ∀ i ∈ ifaces, i ∈ st.written_types) :
    EmitInv (write_type_container st name kind ifaces own) := by
  unfold write_type_container
  split_ifs
  · exact hInv
  · exact emitInv_emit_decl st name kind ifaces _ hInv hifs

theorem emitInv_input_object (st : GenState) (t : TypeDef) (hInv : EmitInv st) :
    EmitInv (write_type_input_object st t) :=
  emitInv_container st t.name "INPUT_OBJECT" [] t.inputFields hInv (by simp)

theorem emitInv_interface (st : GenState) (t : TypeDef) (hInv : EmitInv st) :
    EmitInv (write_type_interface st t) :=
  emitInv_container st t.name "INTERFACE" [] t.fields hInv (by simp)

theorem collectInherited_ok_mem (cg : CodeGenCtx) (written : List String) :
    ∀ (l : List String) (inh : List String),
      collectInherited cg written l = .ok inh → ∀ i ∈ l, i ∈ written := by
  intro l
  induction l with
  | nil => simp
  | cons i rest ih =>
    intro inh h j hj
    unfold collectInherited at h
    by_cases hw : i ∈ written
    · rw [if_pos hw] at h
      rcases List.mem_cons.mp hj with rfl | hj
      · exact hw
      · rcases hty : type_by_name cg i with _ | ty <;> rw [hty] at h
        · cases h
        · rcases hr : collectInherited cg written rest with e | more <;> rw [hr] at h
          · cases h
          · exact ih more hr j hj
    · rw [if_neg hw] at h
      cases h

theorem emitInv_object (cg : CodeGenCtx) (st : GenState) (t : TypeDef)
    (hInv : EmitInv st) : EmitInv (write_type_object cg st t) := by
  unfold write_type_object
  split_ifs
  · exact hInv
  · exact hInv
  · rcases hok : collectInherited cg st.written_types t.interfaces with e | inherited
    · exact ⟨hInv.1, hInv.2⟩
    · exact emitInv_container st t.name "OBJECT" t.interfaces
        (t.fields.filter (fun f => f.name ∉ inherited)) hInv
        (collectInherited_ok_mem cg st.written_types t.interfaces inherited hok)

theorem emitInv_foldl (step : (GenState × List TypeDef) → TypeDef → GenState × List TypeDef)
    (hstep : ∀ acc t, EmitInv acc.1 → EmitInv (step acc t).1) :
    ∀ (l : List TypeDef) (acc : GenState × List TypeDef),
      EmitInv acc.1 → EmitInv (l.foldl step acc).1 := by
  intro l
  induction l with
  | nil => intro acc h; exact h
  | cons t ts ih => intro acc h; exact ih _ (hstep acc t h)

theorem emitInv_phase_basic (acc : GenState × List TypeDef) (t : TypeDef)
    (h : EmitInv acc.1) : EmitInv (phase_basic_step acc t).1 := by
  unfold phase_basic_step
  split_ifs
  · exact emitInv_enum _ _ h
  · exact emitInv_scalar _ _ h
  · exact h

theorem emitInv_phase_input (acc : GenState × List TypeDef) (t : TypeDef)
    (h : EmitInv acc.1) : EmitInv (phase_input_step acc t).1 := by
  unfold phase_input_step
  split_ifs
  · exact emitInv_input_object _ _ h
  · exact h

theorem emitInv_phase_output (cg : CodeGenCtx) (acc : GenState × List TypeDef)
    (t : TypeDef) (h : EmitInv acc.1) : EmitInv (phase_output_step cg acc t).1 := by
  unfold phase_output_step
  split_ifs
  · exact emitInv_interface _ _ h
  · exact emitInv_object cg _ _ h
  · exact h

theorem emitInv_phase_post (acc : GenState × List TypeDef) (t : TypeDef)
    (h : EmitInv acc.1) : EmitInv (phase_post_step acc t).1 := by
  unfold phase_post_step
  split_ifs
  · exact emitInv_union _ _ h
  · exact h

theorem emitInv_err (st : GenState) (e : Option GenError) (hInv : EmitInv st) :
    EmitInv { st with err := e } :=
  ⟨hInv.1, hInv.2⟩

theorem emitInv_write_types (cg : CodeGenCtx) (st : GenState) (hInv : EmitInv st) :
    EmitInv (write_types cg st) := by
  have hcore : EmitInv (write_types_core cg st).1 := by
    unfold write_types_core
    exact emitInv_foldl phase_post_step emitInv_phase_post _ _
      (emitInv_banner _ _
        (emitInv_foldl (phase_output_step cg) (emitInv_phase_output cg) _ _
          (emitInv_banner _ _
            (emitInv_foldl phase_input_step emitInv_phase_input _ _
              (emitInv_banner _ _
                (emitInv_foldl phase_basic_step emitInv_phase_basic _ _
                  (emitInv_banner _ _ hInv)))))))
  unfold write_types
  dsimp only
  split_ifs
  · exact hcore
  · exact hcore
  · exact emitInv_err _ _ hcore

theorem emitInv_write_header (cg : CodeGenCtx) (st : GenState) (hInv : EmitInv st) :
    EmitInv (write_header cg st) := by
  unfold write_header
  split_ifs
  · exact hInv
  · exact emitInv_emit_plain _ .relayFixup
      (emitInv_emit_plain st (.headerE cg.uses_datetime cg.uses_relay) hInv
        (fun n ifs its h => by cases h))
      (fun n ifs its h => by cases h)
  · exact emitInv_emit_plain st (.headerE cg.uses_datetime cg.uses_relay) hInv
      (fun n ifs its h => by cases h)

theorem emitInv_write_entry_points (cg : CodeGenCtx) (st : GenState) (hInv : EmitInv st) :
    EmitInv (write_entry_points cg st) := by
  unfold write_entry_points
  split_ifs
  · exact hInv
  · exact emitInv_emit_plain _ _ (emitInv_banner _ _ hInv) (fun n ifs its h => by cases h)

theorem emitInv_initState : EmitInv initState := by
  constructor
  · intro n hn
    cases hn
  · intro j n ifs its hj
    cases hj

theorem emitInv_codegen_write (cg : CodeGenCtx) : EmitInv (codegen_write cg) :=
  emitInv_write_entry_points cg _
    (emitInv_write_types cg _ (emitInv_write_header cg _ emitInv_initState))

/-! ## Shared concrete witness schema -/

def wIface : TypeDef :=
  { name := "Iface", kind := "INTERFACE", fields := [{ name := "id" }] }

def wObj : TypeDef :=
  { name := "Obj", kind := "OBJECT",
    fields := [{ name := "id" }, { name := "x" }], interfaces := ["Iface"] }

def wSchema : IntroSchema := { types := [wObj, wIface], queryType := some "Obj" }

def wState : GenState := { written_types := ["Iface"] }

/-- C1: for every schema run through the pipeline (types sorted by
name, the output-objects-and-interfaces bucket sorted by `depend_cmp`),
every emitted OBJECT declaration has each interface it implements
declared strictly earlier in the output stream — for any schema,
including interface chains of any depth, because `write_type_object`
only emits after checking each interface name against
`written_types`, every member of which has an earlier declaration. -/
theorem dependency_soundness (schema_name : String) (schema : IntroSchema)
    (j : Nat) (n i : String) (ifs items : List String)
    (hj : (run_codegen schema_name schema).out[j]? = some (.decl n "OBJECT" ifs items))
    (hi : i ∈ ifs) :
    ∃ k, k < j ∧ declNameAt (run_codegen schema_name schema).out k i :=
  (emitInv_codegen_write (mkCodeGen schema_name schema)).2 j n ifs items hj i hi

/-- C1 witness: in the concrete run, `Obj` (implementing `Iface`) is
emitted at position 5 and `Iface`'s declaration indeed occurs
earlier. -/
theorem dependency_soundness_witness :
    ∃ k, k < 5 ∧ declNameAt (run_codegen "sch" wSchema).out k "Iface" :=
  dependency_soundness "sch" wSchema 5 "Obj" "Iface" ["Iface"] ["x"]
    (by decide) (by decide)

/-- Membership in the inherited-fields collection: exactly the field
names of the implemented interfaces as looked up in the name index. -/
theorem collectInherited_mem (cg : CodeGenCtx) (written : List String) :
    ∀ (l : List String) (inh : List String),
      collectInherited cg written l = .ok inh →
      ∀ fn, fn ∈ inh ↔ ∃ i ∈ l, ∃ ty, type_by_name cg i = some ty ∧
        fn ∈ ty.fields.map FieldDef.name := by
  intro l
  induction l with
  | nil =>
    intro inh h fn
    unfold collectInherited at h
    cases h
    simp
  | cons i rest ih =>
    intro inh h fn
    unfold collectInherited at h
    by_cases hw : i ∈ written
    · rw [if_pos hw] at h
      rcases hty : type_by_name cg i with _ | ty <;> rw [hty] at h
      · cases h
      · rcases hr : collectInherited cg written rest with e | more <;> rw [hr] at h
        · cases h
        · cases h
          constructor
          · intro hmem
            rcases List.mem_append.mp hmem with hmem | hmem
            · exact ⟨i, List.mem_cons_self i rest, ty, hty, hmem⟩
            · obtain ⟨i', hi', ty', hty', hfn⟩ := (ih more hr fn).mp hmem
              exact ⟨i', List.mem_cons_of_mem i hi', ty', hty', hfn⟩
          · rintro ⟨i', hi', ty', hty', hfn⟩
            rcases List.mem_cons.mp hi' with rfl | hi'
            · rw [hty] at hty'
              cases hty'
              exact List.mem_append.mpr (Or.inl hfn)
            · exact List.mem_append.mpr
                (Or.inr ((ih more hr fn).mpr ⟨i', hi', ty', hty', hfn⟩))
    · rw [if_neg hw] at h
      cases h

/-- C2: an emitted OBJECT declaration's own-field sequence is the
declared field sequence with exactly those fields removed whose name
occurs among the fields of some implemented interface (resolved through
the name-to-type index): membership is characterized both ways and the
relative order is preserved (sublist of the declared sequence). -/
theorem field_exclusivity (cg : CodeGenCtx) (st : GenState) (t : TypeDef)
    (inh : List String)
    (herr : st.err = none)
    (hnb : t.name ∉ builtin_object_names)
    (hok : collectInherited cg st.written_types t.interfaces = .ok inh) :
    ∃ own : List FieldDef,
      (write_type_object cg st t).out =
        st.out ++ [.decl t.name "OBJECT" t.interfaces (own.map FieldDef.name)] ∧
      own.Sublist t.fields ∧
      ∀ f, f ∈ own ↔ f ∈ t.fields ∧
        ¬ ∃ i ∈ t.interfaces, ∃ ty, type_by_name cg i = some ty ∧
          f.name ∈ ty.fields.map FieldDef.name := by
  refine ⟨t.fields.filter (fun f => f.name ∉ inh), ?_, List.filter_sublist _, ?_⟩
  · unfold write_type_object write_type_container
    rw [if_neg (by simp [herr]), if_neg hnb, hok]
    dsimp only
    rw [if_neg (by simp [herr])]
  · intro f
    rw [List.mem_filter]
    constructor
    · rintro ⟨hf, hnotin⟩
      refine ⟨hf, fun hex => ?_⟩
      have : f.name ∈ inh := (collectInherited_mem cg st.written_types
        t.interfaces inh hok f.name).mpr hex
      simp [this] at hnotin
    · rintro ⟨hf, hnot⟩
      refine ⟨hf, ?_⟩
      have : f.name ∉ inh := fun hmem =>
        hnot ((collectInherited_mem cg st.written_types t.interfaces inh hok f.name).mp hmem)
      simp [this]

/-- C2 witness: on the concrete schema, `Obj`'s emitted own fields are
exactly its declared fields minus the inherited `id`. -/
theorem field_exclusivity_witness :
    ∃ own : List FieldDef,
      (write_type_object (mkCodeGen "sch" wSchema) wState wObj).out =
        wState.out ++ [.decl wObj.name "OBJECT" wObj.interfaces (own.map FieldDef.name)] ∧
      own.Sublist wObj.fields ∧
      ∀ f, f ∈ own ↔ f ∈ wObj.fields ∧
        ¬ ∃ i ∈ wObj.interfaces, ∃ ty, type_by_name (mkCodeGen "sch" wSchema) i = some ty ∧
          f.name ∈ ty.fields.map FieldDef.name :=
  field_exclusivity (mkCodeGen "sch" wSchema) wState wObj ["id"]
    rfl (by decide) (by decide)

/-! ## Classification lemmas -/

theorem foldl_phase_remaining
    (step : (GenState × List TypeDef) → TypeDef → GenState × List TypeDef)
    (p : TypeDef → Bool)
    (hstep : ∀ acc t, (step acc t).2 = if p t then acc.2 else acc.2 ++ [t]) :
    ∀ (l : List TypeDef) (acc : GenState × List TypeDef),
      (l.foldl step acc).2 = acc.2 ++ l.filter (fun t => !p t) := by
  intro l
  induction l with
  | nil => intro acc; simp
  | cons t ts ih =>
    intro acc
    rw [List.foldl_cons, ih (step acc t), hstep acc t]
    by_cases hp : p t = true
    · simp [List.filter_cons, hp]
    · simp only [Bool.not_eq_true] at hp
      simp [List.filter_cons, hp, List.append_assoc]

theorem phase_basic_step_remaining (acc : GenState × List TypeDef) (t : TypeDef) :
    (phase_basic_step acc t).2 =
      if (t.kind == "ENUM" || t.kind == "SCALAR") then acc.2 else acc.2 ++ [t] := by
  unfold phase_basic_step
  by_cases h1 : t.kind == "ENUM" <;> by_cases h2 : t.kind == "SCALAR" <;> simp [h1, h2]

theorem phase_input_step_remaining (acc : GenState × List TypeDef) (t : TypeDef) :
    (phase_input_step acc t).2 =
      if (t.kind == "INPUT_OBJECT") then acc.2 else acc.2 ++ [t] := by
  unfold phase_input_step
  by_cases h1 : t.kind == "INPUT_OBJECT" <;> simp [h1]

theorem phase_output_step_remaining (cg : CodeGenCtx)
    (acc : GenState × List TypeDef) (t : TypeDef) :
    (phase_output_step cg acc t).2 =
      if (t.kind == "INTERFACE" || t.kind == "OBJECT") then acc.2 else acc.2 ++ [t] := by
  unfold phase_output_step
  by_cases h1 : t.kind == "INTERFACE" <;> by_cases h2 : t.kind == "OBJECT" <;> simp [h1, h2]

theorem phase_post_step_remaining (acc : GenState × List TypeDef) (t : TypeDef) :
    (phase_post_step acc t).2 =
      if (t.kind == "UNION") then acc.2 else acc.2 ++ [t] := by
  unfold phase_post_step
  by_cases h1 : t.kind == "UNION" <;> simp [h1]

theorem mem_insertByCmp (cmp : TypeDef → TypeDef → Int) (x : TypeDef) :
    ∀ (l : List TypeDef) (a : TypeDef), a ∈ insertByCmp cmp x l ↔ a = x ∨ a ∈ l := by
  intro l
  induction l with
  | nil => intro a; simp [insertByCmp]
  | cons y ys ih =>
    intro a
    unfold insertByCmp
    split_ifs
    · simp
    · simp only [List.mem_cons, ih a]
      tauto

theorem mem_sortByCmp (cmp : TypeDef → TypeDef → Int) :
    ∀ (l : List TypeDef) (a : TypeDef), a ∈ sortByCmp cmp l ↔ a ∈ l := by
  intro l
  induction l with
  | nil => intro a; simp [sortByCmp]
  | cons y ys ih =>
    intro a
    unfold sortByCmp
    rw [mem_insertByCmp]
    simp only [List.mem_cons, ih a]

theorem write_types_core_remaining (cg : CodeGenCtx) (st : GenState) :
    (write_types_core cg st).2 =
      (((sortByCmp depend_cmp
          ((cg.types.filter (fun t => !(t.kind == "ENUM" || t.kind == "SCALAR"))).filter
            (fun t => !(t.kind == "INPUT_OBJECT")))).filter
          (fun t => !(t.kind == "INTERFACE" || t.kind == "OBJECT"))).filter
        (fun t => !(t.kind == "UNION"))) := by
  unfold write_types_core
  dsimp only
  rw [foldl_phase_remaining phase_post_step _ phase_post_step_remaining,
      foldl_phase_remaining (phase_output_step cg) _ (phase_output_step_remaining cg),
      foldl_phase_remaining phase_input_step _ phase_input_step_remaining,
      foldl_phase_remaining phase_basic_step _ phase_basic_step_remaining]
  simp

theorem mem_write_types_core_remaining (cg : CodeGenCtx) (st : GenState) (t : TypeDef) :
    t ∈ (write_types_core cg st).2 ↔ t ∈ cg.types ∧ t.kind ∉ knownKinds := by
  rw [write_types_core_remaining]
  simp only [List.mem_filter, mem_sortByCmp, Bool.not_eq_true', Bool.or_eq_false_iff,
    beq_eq_false_iff_ne, ne_eq, knownKinds, List.mem_cons, List.not_mem_nil, or_false,
    not_or]
  tauto

theorem claimCount_known (k : String) (h : k ∈ knownKinds) : claimCount k = 1 := by
  simp only [knownKinds, List.mem_cons, List.not_mem_nil, or_false] at h
  rcases h with rfl | rfl | rfl | rfl | rfl | rfl <;> decide

/-- C6: when every declared type has one of the six handled kinds, the
four sequential phases claim each type exactly once (its kind belongs
to exactly one phase) and nothing remains after phase 4, so the final
`assert not remaining` cannot fail; a type of any other kind survives
all four phases and makes the run abort. -/
theorem classification_totality (cg : CodeGenCtx) (st : GenState) :
    ((∀ t ∈ cg.types, t.kind ∈ knownKinds) →
        (write_types_core cg st).2 = [] ∧ ∀ t ∈ cg.types, claimCount t.kind = 1) ∧
    (∀ t ∈ cg.types, t.kind ∉ knownKinds →
        t ∈ (write_types_core cg st).2 ∧ (write_types cg st).err.isSome = true) := by
  constructor
  · intro hall
    constructor
    · rw [List.eq_nil_iff_forall_not_mem]
      intro t ht
      rw [mem_write_types_core_remaining] at ht
      exact ht.2 (hall t ht.1)
    · intro t ht
      exact claimCount_known t.kind (hall t ht)
  · intro t ht hk
    have hmem : t ∈ (write_types_core cg st).2 :=
      (mem_write_types_core_remaining cg st t).mpr ⟨ht, hk⟩
    refine ⟨hmem, ?_⟩
    unfold write_types
    dsimp only
    rw [if_neg (fun hemp => by
      rw [List.isEmpty_iff] at hemp
      rw [hemp] at hmem
      cases hmem)]
    split_ifs with he
    · exact he
    · simp

/-- C6 witness: the concrete schema has only handled kinds, so the
remainder is empty and each type's kind is claimed exactly once. -/
theorem classification_totality_witness :
    (write_types_core (mkCodeGen "sch" wSchema) initState).2 = [] ∧
      ∀ t ∈ (mkCodeGen "sch" wSchema).types, claimCount t.kind = 1 :=
  (classification_totality (mkCodeGen "sch" wSchema) initState).1 (by decide)

/-! ## Emission-state monotonicity lemmas -/

theorem addWritten_subset (w : List String) (n : String) : w ⊆ addWritten w n := by
  unfold addWritten
  split_ifs
  · exact fun x h => h
  · exact List.subset_append_left _ _

theorem written_banner_eq (st : GenState) (text : String) :
    (write_banner st text).written_types = st.written_types := by
  unfold write_banner
  split_ifs <;> rfl

theorem written_mono_enum (st : GenState) (t : TypeDef) :
    st.written_types ⊆ (write_type_enum st t).written_types := by
  unfold write_type_enum
  split_ifs
  · exact fun x h => h
  · exact fun x h => h
  · exact addWritten_subset _ _

theorem written_mono_scalar (st : GenState) (t : TypeDef) :
    st.written_types ⊆ (write_type_scalar st t).written_types := by
  unfold write_type_scalar
  split_ifs
  · exact fun x h => h
  · exact addWritten_subset _ _

theorem written_mono_union (st : GenState) (t : TypeDef) :
    st.written_types ⊆ (write_type_union st t).written_types := by
  unfold write_type_union
  split_ifs
  · exact fun x h => h
  · exact addWritten_subset _ _

theorem written_mono_container (st : GenState) (name kind : String)
    (ifaces : List String) (own : List FieldDef) :
    st.written_types ⊆ (write_type_container st name kind ifaces own).written_types := by
  unfold write_type_container
  split_ifs
  · exact fun x h => h
  · exact addWritten_subset _ _

theorem written_mono_input_object (st : GenState) (t : TypeDef) :
    st.written_types ⊆ (write_type_input_object st t).written_types :=
  written_mono_container st t.name "INPUT_OBJECT" [] t.inputFields

theorem written_mono_interface (st : GenState) (t : TypeDef) :
    st.written_types ⊆ (write_type_interface st t).written_types :=
  written_mono_container st t.name "INTERFACE" [] t.fields

theorem written_mono_object (cg : CodeGenCtx) (st : GenState) (t : TypeDef) :
    st.written_types ⊆ (write_type_object cg st t).written_types := by
  unfold write_type_object
  split_ifs
  · exact fun x h => h
  · exact fun x h => h
  · cases collectInherited cg st.written_types t.interfaces with
    | error e => exact fun x h => h
    | ok inherited => exact written_mono_container st t.name "OBJECT" t.interfaces _

theorem written_mono_foldl
    (step : (GenState × List TypeDef) → TypeDef → GenState × List TypeDef)
    (hstep : ∀ acc t, acc.1.written_types ⊆ (step acc t).1.written_types) :
    ∀ (l : List TypeDef) (acc : GenState × List TypeDef),
      acc.1.written_types ⊆ (l.foldl step acc).1.written_types := by
  intro l
  induction l with
  | nil => intro acc; exact fun x h => h
  | cons t ts ih => intro acc x hx; exact ih (step acc t) (hstep acc t hx)

theorem written_mono_phase_basic (acc : GenState × List TypeDef) (t : TypeDef) :
    acc.1.written_types ⊆ (phase_basic_step acc t).1.written_types := by
  unfold phase_basic_step
  split_ifs
  · exact written_mono_enum _ _
  · exact written_mono_scalar _ _
  · exact fun x h => h

theorem written_mono_phase_input (acc : GenState × List TypeDef) (t : TypeDef) :
    acc.1.written_types ⊆ (phase_input_step acc t).1.written_types := by
  unfold phase_input_step
  split_ifs
  · exact written_mono_input_object _ _
  · exact fun x h => h

theorem written_mono_phase_output (cg : CodeGenCtx)
    (acc : GenState × List TypeDef) (t : TypeDef) :
    acc.1.written_types ⊆ (phase_output_step cg acc t).1.written_types := by
  unfold phase_output_step
  split_ifs
  · exact written_mono_interface _ _
  · exact written_mono_object cg _ _
  · exact fun x h => h

theorem written_mono_phase_post (acc : GenState × List TypeDef) (t : TypeDef) :
    acc.1.written_types ⊆ (phase_post_step acc t).1.written_types := by
  unfold phase_post_step
  split_ifs
  · exact written_mono_union _ _
  · exact fun x h => h

theorem written_mono_write_types (cg : CodeGenCtx) (st : GenState) :
    st.written_types ⊆ (write_types cg st).written_types := by
  have hcore : st.written_types ⊆ (write_types_core cg st).1.written_types := by
    unfold write_types_core
    dsimp only
    intro x hx
    apply written_mono_foldl phase_post_step written_mono_phase_post
    show x ∈ (write_banner _ "Unions").written_types
    rw [written_banner_eq]
    apply written_mono_foldl (phase_output_step cg) (written_mono_phase_output cg)
    show x ∈ (write_banner _ "Output Objects and Interfaces").written_types
    rw [written_banner_eq]
    apply written_mono_foldl phase_input_step written_mono_phase_input
    show x ∈ (write_banner _ "Input Objects").written_types
    rw [written_banner_eq]
    apply written_mono_foldl phase_basic_step written_mono_phase_basic
    show x ∈ (write_banner _ "Scalars and Enumerations").written_types
    rw [written_banner_eq]
    exact hx
  unfold write_types
  dsimp only
  split_ifs
  · exact hcore
  · exact hcore
  · exact hcore

/-- C7: `written_types` starts empty, no non-emitting component
(banner, header, entry points) ever changes it, each type writer adds
exactly the written type's name together with its declaration — except
the skipped built-in introspection enums and meta-objects, and a failed
interface check, which add nothing — and the whole `write_types` pass
only ever grows the set. -/
theorem emission_state_monotonic :
    initState.written_types = [] ∧
    (∀ st text, (write_banner st text).written_types = st.written_types) ∧
    (∀ cg st, (write_header cg st).written_types = st.written_types) ∧
    (∀ cg st, (write_entry_points cg st).written_types = st.written_types) ∧
    (∀ (st : GenState) (t : TypeDef), st.err = none → t.name ∈ builtin_enum_names →
        write_type_enum st t = st) ∧
    (∀ (st : GenState) (t : TypeDef), st.err = none → t.name ∉ builtin_enum_names →
        (write_type_enum st t).written_types = addWritten st.written_types t.name ∧
        (write_type_enum st t).out = st.out ++ [.decl t.name "ENUM" [] t.enumValues]) ∧
    (∀ (st : GenState) (t : TypeDef), st.err = none →
        (write_type_scalar st t).written_types = addWritten st.written_types t.name ∧
        (write_type_scalar st t).out = st.out ++ [.decl t.name "SCALAR" [] []]) ∧
    (∀ (st : GenState) (t : TypeDef), st.err = none →
        (write_type_input_object st t).written_types = addWritten st.written_types t.name) ∧
    (∀ (st : GenState) (t : TypeDef), st.err = none →
        (write_type_interface st t).written_types = addWritten st.written_types t.name) ∧
    (∀ (st : GenState) (t : TypeDef), st.err = none →
        (write_type_union st t).written_types = addWritten st.written_types t.name ∧
        (write_type_union st t).out = st.out ++ [.decl t.name "UNION" [] t.possibleTypes]) ∧
    (∀ (cg : CodeGenCtx) (st : GenState) (t : TypeDef), st.err = none →
        t.name ∈ builtin_object_names → write_type_object cg st t = st) ∧
    (∀ (cg : CodeGenCtx) (st : GenState) (t : TypeDef) (inh : List String),
        st.err = none → t.name ∉ builtin_object_names →
        collectInherited cg st.written_types t.interfaces = .ok inh →
        (write_type_object cg st t).written_types = addWritten st.written_types t.name) ∧
    (∀ (cg : CodeGenCtx) (st : GenState) (t : TypeDef) (e : GenError),
        st.err = none → t.name ∉ builtin_object_names →
        collectInherited cg st.written_types t.interfaces = .error e →
        (write_type_object cg st t).written_types = st.written_types ∧
        (write_type_object cg st t).out = st.out) ∧
    (∀ (w : List String) (n : String), w ⊆ addWritten w n) ∧
    (∀ cg st, st.written_types ⊆ (write_types cg st).written_types) := by
  refine ⟨rfl, written_banner_eq, ?_, ?_, ?_, ?_, ?_, ?_, ?_, ?_, ?_, ?_, ?_,
    addWritten_subset, written_mono_write_types⟩
  · intro cg st
    unfold write_header
    split_ifs <;> rfl
  · intro cg st
    unfold write_entry_points write_banner
    split_ifs <;> rfl
  · intro st t herr hb
    unfold write_type_enum
    rw [if_neg (by simp [herr]), if_pos hb]
  · intro st t herr hb
    unfold write_type_enum
    rw [if_neg (by simp [herr]), if_neg hb]
    exact ⟨rfl, rfl⟩
  · intro st t herr
    unfold write_type_scalar
    rw [if_neg (by simp [herr])]
    exact ⟨rfl, rfl⟩
  · intro st t herr
    unfold write_type_input_object write_type_container
    rw [if_neg (by simp [herr])]
  · intro st t herr
    unfold write_type_interface write_type_container
    rw [if_neg (by simp [herr])]
  · intro st t herr
    unfold write_type_union
    rw [if_neg (by simp [herr])]
    exact ⟨rfl, rfl⟩
  · intro cg st t herr hb
    unfold write_type_object
    rw [if_neg (by simp [herr]), if_pos hb]
  · intro cg st t inh herr hb hok
    unfold write_type_object write_type_container
    rw [if_neg (by simp [herr]), if_neg hb, hok]
    dsimp only
    rw [if_neg (by simp [herr])]
  · intro cg st t e herr hb hok
    unfold write_type_object
    rw [if_neg (by simp [herr]), if_neg hb, hok]
    exact ⟨rfl, rfl⟩

/-- C7 witness: the scalar writer on the empty initial state adds
exactly the scalar's name alongside its declaration. -/
theorem emission_state_monotonic_witness :
    (write_type_scalar initState { name := "S", kind := "SCALAR" }).written_types =
      addWritten initState.written_types "S" ∧
    (write_type_scalar initState { name := "S", kind := "SCALAR" }).out =
      initState.out ++ [.decl "S" "SCALAR" [] []] :=
  emission_state_monotonic.2.2.2.2.2.2.1 initState { name := "S", kind := "SCALAR" } rfl
